import Mathlib

/-!
Verification of the Salesforce login-event poll-and-index pipeline
(`src/aws/ec2-app`): the JSON bulk-body builder of
`opensearch_client.py`, the token cache of `salesforce_client.py`, the
poll loop of `app.py` and the environment-driven configuration of
`config.py`, shallowly embedded in Lean.
-/

namespace Pipeline

/-! ## JSON values and serialization (Python `json.dumps` with default options) -/

/-- The opening brace character. -/
def lbrace : Char := Char.ofNat 123

/-- The closing brace character. -/
def rbrace : Char := Char.ofNat 125

mutual

/-- A JSON value, as produced by Python dicts/lists/str/int/bool/None. -/
inductive JVal where
  | jnull : JVal
  | jbool : Bool → JVal
  | jnum : Int → JVal
  | jstr : List Char → JVal
  | jarr : JArr → JVal
  | jobj : JObj → JVal
deriving DecidableEq

/-- A JSON array: an ordered list of values. -/
inductive JArr where
  | nil : JArr
  | cons : JVal → JArr → JArr
deriving DecidableEq

/-- A JSON object: an insertion-ordered association list (a Python dict). -/
inductive JObj where
  | nil : JObj
  | cons : List Char → JVal → JObj → JObj
deriving DecidableEq

end

instance : Inhabited JObj := ⟨JObj.nil⟩

/-- Hex digit characters `0`–`f` for values `0`–`15`. -/
def hexDigitAux : Nat → Char
  | 0 => '0' | 1 => '1' | 2 => '2' | 3 => '3' | 4 => '4'
  | 5 => '5' | 6 => '6' | 7 => '7' | 8 => '8' | 9 => '9'
  | 10 => 'a' | 11 => 'b' | 12 => 'c' | 13 => 'd' | 14 => 'e'
  | _ => 'f'

/-- Lowercase hex digit, as used by Python's `\uXXXX` escapes. -/
def hexDigit (k : Nat) : Char := hexDigitAux (k % 16)

/-- Four hex digits of `n % 0x10000`, most significant first. -/
def hex4 (n : Nat) : List Char :=
  [hexDigit (n / 4096), hexDigit (n / 256), hexDigit (n / 16), hexDigit n]

/-- Python `\uXXXX` escape for a code point, with a surrogate pair above
the basic multilingual plane (as `json.dumps` emits with `ensure_ascii`). -/
def uEsc (n : Nat) : List Char :=
  if n < 65536 then '\\' :: 'u' :: hex4 n
  else
    let m := n - 65536
    '\\' :: 'u' :: hex4 (55296 + m / 1024) ++ '\\' :: 'u' :: hex4 (56320 + m % 1024)

/-- Escaping of one character inside a JSON string literal, following
Python's `json.encoder` ASCII escape table: `"` and `\` are
backslash-escaped, the five control shorthands use `\b \t \n \f \r`,
printable ASCII (0x20–0x7e) passes through, and everything else becomes
a `\uXXXX` escape. -/
def escChar (c : Char) : List Char :=
  if c = '"' then ['\\', '"']
  else if c = '\\' then ['\\', '\\']
  else if c = Char.ofNat 8 then ['\\', 'b']
  else if c = Char.ofNat 9 then ['\\', 't']
  else if c = '\n' then ['\\', 'n']
  else if c = Char.ofNat 12 then ['\\', 'f']
  else if c = Char.ofNat 13 then ['\\', 'r']
  else if 32 ≤ c.toNat ∧ c.toNat ≤ 126 then [c]
  else uEsc c.toNat

/-- Escape every character of a string body. -/
def escList (s : List Char) : List Char :=
  s.foldr (fun c acc => escChar c ++ acc) []

/-- Serialization of a JSON string: a quoted, escaped body. -/
def dumpStr (s : List Char) : List Char :=
  '"' :: escList s ++ ['"']

/-- Decimal digit character for `n % 10`. -/
def digitChar (n : Nat) : Char := hexDigitAux (n % 10)

/-- Decimal representation of a natural number, most significant digit first. -/
def natRepr (n : Nat) : List Char :=
  if n < 10 then [digitChar n]
  else natRepr (n / 10) ++ [digitChar (n % 10)]
termination_by n
decreasing_by exact Nat.div_lt_self (by omega) (by omega)

/-- Decimal representation of an integer, as `json.dumps` prints Python ints. -/
def intRepr (n : Int) : List Char :=
  if n < 0 then '-' :: natRepr n.natAbs else natRepr n.toNat

mutual

/-- `json.dumps` with default arguments: item separator `", "`,
key separator `": "`, ASCII-escaped strings. -/
def JVal.dumps : JVal → List Char
  | .jnull => ['n', 'u', 'l', 'l']
  | .jbool true => ['t', 'r', 'u', 'e']
  | .jbool false => ['f', 'a', 'l', 's', 'e']
  | .jnum n => intRepr n
  | .jstr s => dumpStr s
  | .jarr a => '[' :: JArr.dumpsElems a ++ [']']
  | .jobj o => lbrace :: JObj.dumpsFields o ++ [rbrace]

/-- Array elements joined by `", "`. -/
def JArr.dumpsElems : JArr → List Char
  | .nil => []
  | .cons v .nil => JVal.dumps v
  | .cons v (.cons w r) => JVal.dumps v ++ ',' :: ' ' :: JArr.dumpsElems (.cons w r)

/-- Object entries `key: value` joined by `", "`. -/
def JObj.dumpsFields : JObj → List Char
  | .nil => []
  | .cons k v .nil => dumpStr k ++ ':' :: ' ' :: JVal.dumps v
  | .cons k v (.cons k2 v2 r) =>
      dumpStr k ++ ':' :: ' ' :: JVal.dumps v ++ ',' :: ' ' ::
        JObj.dumpsFields (.cons k2 v2 r)

end

/-! ## Dict operations used by the indexer -/

/-- Python `dict.get`: the value stored at `key`, if any. -/
def JObj.get : JObj → List Char → Option JVal
  | .nil, _ => none
  | .cons k v r, key => if k = key then some v else r.get key

/-- Python `d[key] = v`: overwrite in place if the key is present
(keeping its position), otherwise append at the end (dicts preserve
insertion order). -/
def JObj.setKey : JObj → List Char → JVal → JObj
  | .nil, k, v => .cons k v .nil
  | .cons k' v' r, k, v =>
      if k' = k then .cons k' v r else .cons k' v' (r.setKey k v)

/-- Python truthiness of a JSON value. -/
def JVal.truthy : JVal → Bool
  | .jnull => false
  | .jbool b => b
  | .jnum n => n != 0
  | .jstr s => !s.isEmpty
  | .jarr .nil => false
  | .jarr _ => true
  | .jobj .nil => false
  | .jobj _ => true

/-! ## Bulk body construction (`opensearch_client.bulk_index_events`) -/

def tsKey : List Char := "@timestamp".toList

def eventIdKey : List Char := "Id".toList

def indexKey : List Char := "index".toList

def underIndexKey : List Char := "_index".toList

def underIdKey : List Char := "_id".toList

def errorsKey : List Char := "errors".toList

/-- `event['@timestamp'] = datetime.utcnow().isoformat()`. -/
def stampEvent (ts : List Char) (e : JObj) : JObj :=
  e.setKey tsKey (.jstr ts)

/-- The action descriptor appended before each document:
`{"index": {"_index": <configured index>, "_id": event.get('Id')}}`. -/
def actionJson (idx : List Char) (e : JObj) : JVal :=
  .jobj (.cons indexKey
    (.jobj (.cons underIndexKey (.jstr idx)
      (.cons underIdKey ((e.get eventIdKey).getD .jnull) .nil))) .nil)

/-- The `bulk_data` list built by the loop in `bulk_index_events`: each
event (stamped with its own ingestion timestamp `tsFn i`, one
`utcnow()` call per event) contributes an action descriptor followed by
its document body. `i` is the position of the first event of the
remaining list. -/
def bulkItems (idx : List Char) (tsFn : Nat → List Char) :
    List JObj → Nat → List JVal
  | [], _ => []
  | e :: es, i =>
      let stamped := stampEvent (tsFn i) e
      actionJson idx stamped :: .jobj stamped :: bulkItems idx tsFn es (i + 1)

/-- The events list after the mutating loop ran: every event has been
stamped in place. -/
def stampAllFrom (tsFn : Nat → List Char) : List JObj → Nat → List JObj
  | [], _ => []
  | e :: es, i => stampEvent (tsFn i) e :: stampAllFrom tsFn es (i + 1)

/-- Python `'\n'.join(lines)`. -/
def joinNL : List (List Char) → List Char
  | [] => []
  | [l] => l
  | l :: l2 :: ls => l ++ '\n' :: joinNL (l2 :: ls)

/-- `bulk_json = '\n'.join([json.dumps(item) for item in bulk_data]) + '\n'`. -/
def bulkBody (idx : List Char) (tsFn : Nat → List Char) (events : List JObj) :
    List Char :=
  joinNL ((bulkItems idx tsFn events 0).map JVal.dumps) ++ ['\n']

/-- The serialized JSON lines of a batch, in order: the list joined by
newlines to form `bulkBody`. -/
def bulkLines (idx : List Char) (tsFn : Nat → List Char)
    (events : List JObj) : List (List Char) :=
  (bulkItems idx tsFn events 0).map JVal.dumps

/-- Python `str.split('\n')`: the segments between newline characters;
a trailing newline yields a final empty segment. -/
def splitNL : List Char → List (List Char)
  | [] => [[]]
  | c :: cs =>
      if c = '\n' then [] :: splitNL cs
      else
        match splitNL cs with
        | [] => [[c]]
        | l :: ls => (c :: l) :: ls

/-! ## Bulk response interpretation and the full indexing call -/

/-- An exception escaping a modelled Python call: a transport/signing
failure raised by `_make_authenticated_request`, a `response.json()`
decode failure, or an attribute error from calling `.get` on a
non-dict. -/
inductive Exn where
  | transport : Exn
  | decode : Exn
  | attr : Exn
deriving DecidableEq

/-- The HTTP response seen by `bulk_index_events`: a status code and
the outcome of `response.json()` (which raises on a malformed body). -/
structure Response where
  status_code : Nat
  json : Except Exn JVal

/-- `result.get('errors')`, raising if the parsed body is not a dict. -/
def getErrorsFlag : JVal → Except Exn Bool
  | .jobj o => .ok ((JObj.get o errorsKey).getD .jnull).truthy
  | _ => .error .attr

/-- The body of the `try` block of `bulk_index_events` after the bulk
body is built: POST it (`net` is the signing/transmission oracle and
may raise), then — only on status 200 — parse the body and test the
top-level `errors` flag; any non-200 status returns `False`. -/
def bulkAttempt (net : List Char → Except Exn Response) (body : List Char) :
    Except Exn Bool :=
  match net body with
  | .error e => .error e
  | .ok r =>
      if r.status_code = 200 then
        match r.json with
        | .error e => .error e
        | .ok j =>
            match getErrorsFlag j with
            | .error e => .error e
            | .ok errs => .ok (!errs)
      else .ok false

/-- `bulk_index_events(events)`. The result records the returned
boolean, how many bulk POSTs were attempted, and the caller's events
list after the in-place `@timestamp` mutation. The `Except` layer is
where an uncaught exception would surface to the caller; the
`try/except` converts every raised `Exn` into a `False` return. -/
def bulk_index_events (idx : List Char) (tsFn : Nat → List Char)
    (events : List JObj) (net : List Char → Except Exn Response) :
    Except Exn (Bool × Nat × List JObj) :=
  if events.isEmpty then .ok (true, 0, events)
  else
    let stamped := stampAllFrom tsFn events 0
    match bulkAttempt net (bulkBody idx tsFn events) with
    | .error _ => .ok (false, 1, stamped)
    | .ok b => .ok (b, 1, stamped)

/-! ## Salesforce token cache (`salesforce_client.py`) -/

/-- Token lifetime hardcoded by `authenticate`: 1 hour 45 minutes. -/
def tokenLifetime : Nat := 6300

/-- The mutable authentication state of `SalesforceClient`. -/
structure SfState where
  access_token : Option (List Char)
  token_expires_at : Option Nat
deriving DecidableEq

/-- The state set up by `__init__`: no token, no expiry. -/
def SfState.init : SfState := ⟨none, none⟩

/-- `is_token_valid`: `self.access_token and self.token_expires_at and
datetime.now() < self.token_expires_at` (an empty-string token is
falsy; a datetime object is always truthy). -/
def is_token_valid (s : SfState) (now : Nat) : Bool :=
  (match s.access_token with
   | some t => !t.isEmpty
   | none => false) &&
  (match s.token_expires_at with
   | some e => decide (now < e)
   | none => false)

/-- A successful `authenticate()` call: store the token the provider
returned and set `expires_at = now + 1h45m`. The second component
counts the authentication network call it performed. -/
def authenticate (now : Nat) (tok : List Char) : SfState × Nat :=
  (⟨some tok, some (now + tokenLifetime)⟩, 1)

/-- `ensure_authenticated`: authenticate only when the cached token is
not valid. Returns the new state and the number of authentication
network calls made. -/
def ensure_authenticated (s : SfState) (now : Nat) (tok : List Char) :
    SfState × Nat :=
  if is_token_valid s now then (s, 0) else authenticate now tok

/-! ## Poll loop (`app.py`) -/

/-- The cross-cycle state of `LoginEventStreamer`: the watermark. -/
structure StreamerState where
  last_poll_time : Nat
deriving DecidableEq

/-- `process_events`: capture `end_time = utcnow()`, fetch the window
`[last_poll_time, end_time)`, index the batch when non-empty (the
boolean result is only logged), and set the watermark to the captured
`end_time`. A fetch exception propagates before the watermark
assignment. Returns the new state, the indexing outcome and the events
the cycle processed. -/
def process_events {α : Type} (st : StreamerState) (now : Nat)
    (fetch : Nat → Nat → Except Exn (List α)) (ib : List α → Bool) :
    Except Exn (StreamerState × Bool × List α) :=
  match fetch st.last_poll_time now with
  | .error e => .error e
  | .ok evs =>
      let ok := if evs.isEmpty then true else ib evs
      .ok (⟨now⟩, ok, evs)

/-- One iteration of the `while True` body: run `process_events`; on
success sleep the poll interval, on an escaping exception keep the old
state, log the error, and sleep the fixed 30-second backoff. Returns
(state for the next cycle, seconds slept, whether an error was
logged). -/
def loopStep {α : Type} (st : StreamerState) (now : Nat) (pollInterval : Nat)
    (fetch : Nat → Nat → Except Exn (List α)) (ib : List α → Bool) :
    StreamerState × Nat × Bool :=
  match process_events st now fetch ib with
  | .ok (st', _, _) => (st', pollInterval, false)
  | .error _ => (st, 30, true)

/-- The watermark state after `n` completed loop iterations, the
`k`-th iteration capturing `end_time = clock k`. -/
def iterCycles {α : Type} (st : StreamerState) (clock : Nat → Nat)
    (fetch : Nat → Nat → Except Exn (List α)) (ib : List α → Bool)
    (pollInterval : Nat) : Nat → StreamerState
  | 0 => st
  | n + 1 =>
      (loopStep (iterCycles st clock fetch ib pollInterval n) (clock n)
        pollInterval fetch ib).1

/-- The WHERE clause of the SOQL query built by `get_login_events`:
`LoginTime >= start AND LoginTime < end`, applied to a store of login
times. -/
def soqlFetch (store : List Nat) (a b : Nat) : Except Exn (List Nat) :=
  .ok (store.filter fun t => decide (a ≤ t) && decide (t < b))

/-! ## Configuration (`config.py`) -/

/-- The Salesforce credential material loaded from the secret store. -/
structure SfCreds where
  client_id : String
  username : String
  private_key : String
deriving DecidableEq

/-- The fields `Config.__init__` sets. -/
structure ConfigData where
  aws_region : String
  secrets_manager_secret_arn : String
  opensearch_endpoint : String
  opensearch_index : String
  poll_interval_seconds : Int
  salesforce_instance_url : String
  creds : SfCreds
deriving DecidableEq

/-- `os.getenv(k, d)`: the variable's value, or the default when unset. -/
def getenvD (env : String → Option String) (k d : String) : String :=
  match env k with
  | some v => v
  | none => d

/-- Python falsiness of an optional string: unset or empty. -/
def strFalsy (o : Option String) : Bool :=
  match o with
  | some v => v.isEmpty
  | none => true

/-- A whitespace character as stripped by Python `int(str)`. -/
def isPySpace (c : Char) : Bool :=
  c = ' ' || c = Char.ofNat 9 || c = '\n' || c = Char.ofNat 11 ||
    c = Char.ofNat 12 || c = Char.ofNat 13

/-- The numeric value of a non-empty all-digit string. -/
def digitsVal : List Char → Option Nat
  | [] => none
  | l =>
      l.foldl
        (fun acc c =>
          match acc with
          | none => none
          | some a =>
              if 48 ≤ c.toNat ∧ c.toNat ≤ 57 then some (a * 10 + (c.toNat - 48))
              else none)
        (some 0)

/-- Python `int(s)` on a decimal string literal: optional surrounding
whitespace, an optional sign, then digits; anything else raises
`ValueError`. -/
def pyInt (s : String) : Except Unit Int :=
  let l := ((s.toList.dropWhile isPySpace).reverse.dropWhile isPySpace).reverse
  match l with
  | '-' :: rest =>
      match digitsVal rest with
      | some n => .ok (-(n : Int))
      | none => .error ()
  | '+' :: rest =>
      match digitsVal rest with
      | some n => .ok (n : Int)
      | none => .error ()
  | _ =>
      match digitsVal l with
      | some n => .ok (n : Int)
      | none => .error ()

/-- The required-variable dict of `_validate_required_config`, in
insertion order. -/
def requiredNames : List String :=
  ["OPENSEARCH_ENDPOINT", "SECRETS_MANAGER_SECRET_ARN", "SALESFORCE_INSTANCE_URL"]

/-- The value `Config` read for each required variable. -/
def requiredValue (env : String → Option String) (name : String) :
    Option String :=
  env name

/-- `missing_vars`: the required variables whose value is falsy. -/
def missingOf (env : String → Option String) : List String :=
  requiredNames.filter fun n => strFalsy (env n)

/-- `Config.__init__`, in source order: read the environment (region,
secret reference, endpoint, index, poll interval, instance URL; `int()`
of the poll interval can already raise here), validate the three
required variables — raising one `ValueError` naming all missing ones —
then load the Salesforce credentials from the secret store
(`secretLookup` is the Secrets-Manager oracle). -/
def Config.load (env : String → Option String)
    (secretLookup : Except String SfCreds) : Except String ConfigData :=
  let aws_region := getenvD env "AWS_REGION" "us-west-1"
  let sm_arn := env "SECRETS_MANAGER_SECRET_ARN"
  let ose := env "OPENSEARCH_ENDPOINT"
  let idx := getenvD env "OPENSEARCH_INDEX" "salesforce-login-events"
  match pyInt (getenvD env "POLL_INTERVAL_SECONDS" "60") with
  | .error _ => .error "invalid literal for int() with base 10"
  | .ok poll =>
      let sfu := env "SALESFORCE_INSTANCE_URL"
      let missing := missingOf env
      if missing.isEmpty then
        match secretLookup with
        | .error e => .error ("Failed to load Salesforce credentials: " ++ e)
        | .ok creds =>
            .ok ⟨aws_region, sm_arn.getD "", ose.getD "", idx, poll,
              sfu.getD "", creds⟩
      else
        .error ("Missing required environment variables: " ++
          String.intercalate ", " missing)

/-! ## Derived notions and concrete sample data used in statements -/

/-- The default index name from `config.py`. -/
def defaultIndexChars : List Char := "salesforce-login-events".toList

/-- A 2xx HTTP status. -/
def is2xx (s : Nat) : Prop := 200 ≤ s ∧ s < 300

instance (s : Nat) : Decidable (is2xx s) := by unfold is2xx; infer_instance

/-- States of `SalesforceClient` reachable from `__init__`: the token
and its expiry are set together, and a stored token is non-empty. -/
def SfInv (s : SfState) : Prop :=
  (s.access_token.isSome ↔ s.token_expires_at.isSome) ∧
  ∀ t, s.access_token = some t → t ≠ []

/-- The events fetched by cycle `n` when the upstream store is
`store`: `soqlFetch` applied to that cycle's watermark and clock
capture. -/
def cycleEvents (st0 : StreamerState) (clock : Nat → Nat) (store : List Nat)
    (ib : List Nat → Bool) (p n : Nat) : List Nat :=
  (soqlFetch store
      (iterCycles st0 clock (soqlFetch store) ib p n).last_poll_time
      (clock n)).toOption.getD []

/-- A minimal event whose `Id` is `"E1"`. -/
def sampleE1 : JObj := .cons eventIdKey (.jstr "E1".toList) .nil

/-- A minimal event whose `Id` is `"E2"`. -/
def sampleE2 : JObj := .cons eventIdKey (.jstr "E2".toList) .nil

/-- A fixed ingestion timestamp for concrete runs. -/
def sampleTs : Nat → List Char := fun _ => "2025-01-01T00:00:00".toList

/-- The action line `json.dumps` actually emits for id `"E1"` under the
default index name (default separators `", "` and `": "`). -/
def bulkActionLineE1 : List Char :=
  ("\x7b\"index\": \x7b\"_index\": \"salesforce-login-events\", \"_id\": \"E1\"\x7d\x7d").toList

/-- The action line `json.dumps` actually emits for id `"E2"`. -/
def bulkActionLineE2 : List Char :=
  ("\x7b\"index\": \x7b\"_index\": \"salesforce-login-events\", \"_id\": \"E2\"\x7d\x7d").toList

/-- The compact action line (no separator spaces) asserted by the
spec's end-to-end scenario for id `"E1"`. -/
def compactActionLineE1 : List Char :=
  ("\x7b\"index\":\x7b\"_index\":\"salesforce-login-events\",\"_id\":\"E1\"\x7d\x7d").toList

/-- A network oracle answering every bulk POST with a plain HTTP 500. -/
def wNet500 : List Char → Except Exn Response :=
  fun _ => .ok ⟨500, .ok (.jobj .nil)⟩

/-- A client state holding a valid non-empty token expiring at 100. -/
def wSfValid : SfState := ⟨some ("tok").toList, some 100⟩

/-- A concrete strictly increasing cycle clock. -/
def wClock : Nat → Nat := fun n => 10 * n + 5

/-- A concrete store of login times. -/
def wStore : List Nat := [0, 3, 7, 12, 30]

/-- An index oracle that always succeeds. -/
def wIb : List Nat → Bool := fun _ => true

/-- A concrete initial streamer state. -/
def wSt0 : StreamerState := ⟨2⟩

/-- A fetch oracle that always raises (an upstream HTTP 500). -/
def wFailFetch : Nat → Nat → Except Exn (List Nat) :=
  fun _ _ => .error .transport

/-- An environment with the two other required variables set but no
OpenSearch endpoint. -/
def wEnvMissing : String → Option String := fun k =>
  if k = "SECRETS_MANAGER_SECRET_ARN" then some "arn:aws:secretsmanager:secret"
  else if k = "SALESFORCE_INSTANCE_URL" then some "https://example.my.salesforce.com"
  else none

/-- Concrete credential material. -/
def wCreds : SfCreds := ⟨"cid", "user@example.com", "pem"⟩

/-- An environment with the OpenSearch endpoint missing AND an
unparsable poll interval. -/
def wEnvBadPoll : String → Option String := fun k =>
  if k = "POLL_INTERVAL_SECONDS" then some "sixty" else wEnvMissing k

instance {ε α : Type} [DecidableEq ε] [DecidableEq α] : DecidableEq (Except ε α)
  | .error a, .error b =>
      if h : a = b then .isTrue (by rw [h])
      else .isFalse (fun hc => h (Except.error.inj hc))
  | .error _, .ok _ => .isFalse (fun h => Except.noConfusion h)
  | .ok _, .error _ => .isFalse (fun h => Except.noConfusion h)
  | .ok a, .ok b =>
      if h : a = b then .isTrue (by rw [h])
      else .isFalse (fun hc => h (Except.ok.inj hc))

/-! ## Serialized JSON contains no newline character -/

theorem hexDigitAux_ne_nl (j : Nat) : hexDigitAux j ≠ '\n' := by
  unfold hexDigitAux
  split <;> decide

theorem hexDigit_ne_nl (k : Nat) : hexDigit k ≠ '\n' := by
  unfold hexDigit
  exact hexDigitAux_ne_nl _

theorem digitChar_ne_nl (n : Nat) : digitChar n ≠ '\n' := by
  unfold digitChar
  exact hexDigitAux_ne_nl _

theorem hex4_noNL (n : Nat) : '\n' ∉ hex4 n := by
  intro h
  simp only [hex4, List.mem_cons, List.not_mem_nil, or_false] at h
  rcases h with h | h | h | h <;> exact hexDigit_ne_nl _ h.symm

theorem uEsc_noNL (n : Nat) : '\n' ∉ uEsc n := by
  intro h
  unfold uEsc at h
  split at h
  · rcases List.mem_cons.1 h with h | h
    · exact absurd h (by decide)
    · rcases List.mem_cons.1 h with h | h
      · exact absurd h (by decide)
      · exact hex4_noNL n h
  · rcases List.mem_cons.1 h with h | h
    · exact absurd h (by decide)
    · rcases List.mem_cons.1 h with h | h
      · exact absurd h (by decide)
      · rcases List.mem_append.1 h with h | h
        · exact hex4_noNL _ h
        · rcases List.mem_cons.1 h with h | h
          · exact absurd h (by decide)
          · rcases List.mem_cons.1 h with h | h
            · exact absurd h (by decide)
            · exact hex4_noNL _ h

theorem escChar_noNL (c : Char) : '\n' ∉ escChar c := by
  unfold escChar
  split
  · decide
  · split
    · decide
    · split
      · decide
      · split
        · decide
        · split
          · decide
          · split
            · decide
            · split
              · decide
              · split
                · rename_i h1 h2 h3 h4 h5 h6 h7 hr
                  intro hm
                  rw [List.mem_singleton] at hm
                  subst hm
                  exact absurd hr (by decide)
                · exact uEsc_noNL _

theorem escList_noNL (s : List Char) : '\n' ∉ escList s := by
  induction s with
  | nil => simp [escList]
  | cons c cs ih =>
      intro h
      simp only [escList, List.foldr_cons] at h
      rcases List.mem_append.1 h with h | h
      · exact escChar_noNL c h
      · exact ih h

theorem dumpStr_noNL (s : List Char) : '\n' ∉ dumpStr s := by
  intro h
  unfold dumpStr at h
  rcases List.mem_cons.1 h with h | h
  · exact absurd h (by decide)
  · rcases List.mem_append.1 h with h | h
    · exact escList_noNL s h
    · rw [List.mem_singleton] at h
      exact absurd h (by decide)

theorem natRepr_noNL (n : Nat) : '\n' ∉ natRepr n := by
  induction n using Nat.strong_induction_on with
  | _ n ih =>
      rw [natRepr]
      split
      · intro h
        simp only [List.mem_singleton] at h
        exact digitChar_ne_nl n h.symm
      · intro h
        rcases List.mem_append.1 h with h | h
        · exact ih (n / 10) (Nat.div_lt_self (by omega) (by omega)) h
        · simp only [List.mem_singleton] at h
          exact digitChar_ne_nl _ h.symm

theorem intRepr_noNL (n : Int) : '\n' ∉ intRepr n := by
  unfold intRepr
  split
  · intro h
    rcases List.mem_cons.1 h with h | h
    · exact absurd h (by decide)
    · exact natRepr_noNL _ h
  · exact natRepr_noNL _

mutual

theorem JVal.dumps_noNL : (v : JVal) → '\n' ∉ JVal.dumps v
  | .jnull => by rw [JVal.dumps]; decide
  | .jbool true => by rw [JVal.dumps]; decide
  | .jbool false => by rw [JVal.dumps]; decide
  | .jnum n => by rw [JVal.dumps]; exact intRepr_noNL n
  | .jstr s => by rw [JVal.dumps]; exact dumpStr_noNL s
  | .jarr a => by
      rw [JVal.dumps]
      intro h
      rcases List.mem_cons.1 h with h | h
      · exact absurd h (by decide)
      · rcases List.mem_append.1 h with h | h
        · exact JArr.dumpsElems_noNL a h
        · exact absurd h (by decide)
  | .jobj o => by
      rw [JVal.dumps]
      intro h
      rcases List.mem_cons.1 h with h | h
      · exact absurd h (by decide)
      · rcases List.mem_append.1 h with h | h
        · exact JObj.dumpsFields_noNL o h
        · exact absurd h (by decide)

theorem JArr.dumpsElems_noNL : (a : JArr) → '\n' ∉ JArr.dumpsElems a
  | .nil => by rw [JArr.dumpsElems]; simp
  | .cons v .nil => by rw [JArr.dumpsElems]; exact JVal.dumps_noNL v
  | .cons v (.cons w r) => by
      rw [JArr.dumpsElems]
      intro h
      rcases List.mem_append.1 h with h | h
      · exact JVal.dumps_noNL v h
      · rcases List.mem_cons.1 h with h | h
        · exact absurd h (by decide)
        · rcases List.mem_cons.1 h with h | h
          · exact absurd h (by decide)
          · exact JArr.dumpsElems_noNL (.cons w r) h

theorem JObj.dumpsFields_noNL : (o : JObj) → '\n' ∉ JObj.dumpsFields o
  | .nil => by rw [JObj.dumpsFields]; simp
  | .cons k v .nil => by
      rw [JObj.dumpsFields]
      intro h
      rcases List.mem_append.1 h with h | h
      · exact dumpStr_noNL k h
      · rcases List.mem_cons.1 h with h | h
        · exact absurd h (by decide)
        · rcases List.mem_cons.1 h with h | h
          · exact absurd h (by decide)
          · exact JVal.dumps_noNL v h
  | .cons k v (.cons k2 v2 r) => by
      rw [JObj.dumpsFields]
      intro h
      rcases List.mem_append.1 h with h | h
      · rcases List.mem_append.1 h with h | h
        · exact dumpStr_noNL k h
        · rcases List.mem_cons.1 h with h | h
          · exact absurd h (by decide)
          · rcases List.mem_cons.1 h with h | h
            · exact absurd h (by decide)
            · exact JVal.dumps_noNL v h
      · rcases List.mem_cons.1 h with h | h
        · exact absurd h (by decide)
        · rcases List.mem_cons.1 h with h | h
          · exact absurd h (by decide)
          · exact JObj.dumpsFields_noNL (.cons k2 v2 r) h


end

theorem natRepr_ne_nil (n : Nat) : natRepr n ≠ [] := by
  rw [natRepr]
  split
  · simp
  · simp

theorem intRepr_ne_nil (n : Int) : intRepr n ≠ [] := by
  unfold intRepr
  split
  · simp
  · exact natRepr_ne_nil _

theorem JVal.dumps_ne_nil (v : JVal) : JVal.dumps v ≠ [] := by
  cases v with
  | jnull => rw [JVal.dumps]; simp
  | jbool b => cases b <;> rw [JVal.dumps] <;> simp
  | jnum n => rw [JVal.dumps]; exact intRepr_ne_nil n
  | jstr s => rw [JVal.dumps]; simp [dumpStr]
  | jarr a => rw [JVal.dumps]; simp
  | jobj o => rw [JVal.dumps]; simp

/-! ## Splitting the joined body recovers the lines -/

theorem splitNL_cons_of_noNL (l rest : List Char) (h : '\n' ∉ l) :
    splitNL (l ++ '\n' :: rest) = l :: splitNL rest := by
  induction l with
  | nil => simp [splitNL]
  | cons c cs ih =>
      have hc : ¬(c = '\n') := fun e => h (by simp [e])
      have h' : '\n' ∉ cs := fun m => h (List.mem_cons_of_mem _ m)
      have step := ih h'
      simp only [List.cons_append, splitNL, if_neg hc, List.append_eq, step]

theorem splitNL_joinNL (ls : List (List Char)) (hne : ls ≠ [])
    (h : ∀ l ∈ ls, '\n' ∉ l) :
    splitNL (joinNL ls ++ ['\n']) = ls ++ [[]] := by
  induction ls with
  | nil => exact absurd rfl hne
  | cons l ls ih =>
      cases ls with
      | nil =>
          have hl : '\n' ∉ l := h l (List.mem_cons_self l [])
          have : splitNL (l ++ '\n' :: []) = l :: splitNL [] :=
            splitNL_cons_of_noNL l [] hl
          simpa [joinNL, splitNL] using this
      | cons l2 ls2 =>
          have hl : '\n' ∉ l := h l (List.mem_cons_self l _)
          have hrest : ∀ x ∈ l2 :: ls2, '\n' ∉ x :=
            fun x hx => h x (List.mem_cons_of_mem _ hx)
          have step := ih (by simp) hrest
          rw [joinNL, List.append_assoc, List.cons_append,
            splitNL_cons_of_noNL l _ hl, step]
          simp

/-! ## Shape of the bulk items list -/

theorem bulkItems_length (idx : List Char) (tsFn : Nat → List Char) :
    ∀ (es : List JObj) (i : Nat),
      (bulkItems idx tsFn es i).length = 2 * es.length := by
  intro es
  induction es with
  | nil => intro i; simp [bulkItems]
  | cons e es ih =>
      intro i
      simp only [bulkItems, List.length_cons, ih]
      omega

theorem bulkItems_get (idx : List Char) (tsFn : Nat → List Char) :
    ∀ (es : List JObj) (j k : Nat), k < es.length →
      (bulkItems idx tsFn es j).get? (2 * k) =
        some (actionJson idx (stampEvent (tsFn (j + k)) (es.getD k default))) ∧
      (bulkItems idx tsFn es j).get? (2 * k + 1) =
        some (.jobj (stampEvent (tsFn (j + k)) (es.getD k default))) := by
  intro es
  induction es with
  | nil => intro j k hk; simp at hk
  | cons e es ih =>
      intro j k hk
      cases k with
      | zero => simp [bulkItems]
      | succ k =>
          have hk' : k < es.length := by simpa using hk
          have step := ih (j + 1) k hk'
          have h2 : 2 * (k + 1) = (2 * k) + 1 + 1 := by omega
          have h3 : j + 1 + k = j + (k + 1) := by omega
          rw [h3] at step
          constructor
          · rw [h2]
            simpa [bulkItems] using step.1
          · rw [h2]
            simpa [bulkItems] using step.2

/-! ## Dict update lemmas -/

theorem JObj.get_setKey_same : ∀ (e : JObj) (k : List Char) (v : JVal),
    (e.setKey k v).get k = some v
  | .nil, k, v => by simp [JObj.setKey, JObj.get]
  | .cons k' v' r, k, v => by
      by_cases h : k' = k
      · subst h
        simp [JObj.setKey, JObj.get]
      · rw [JObj.setKey, if_neg h, JObj.get, if_neg h]
        exact JObj.get_setKey_same r k v

theorem JObj.get_setKey_other : ∀ (e : JObj) (k : List Char) (v : JVal)
    (k' : List Char), k' ≠ k → (e.setKey k v).get k' = e.get k'
  | .nil, k, v, k', h => by
      simp [JObj.setKey, JObj.get, Ne.symm h]
  | .cons k2 v2 r, k, v, k', h => by
      by_cases h2 : k2 = k
      · subst h2
        simp [JObj.setKey, JObj.get, Ne.symm h]
      · by_cases h3 : k2 = k'
        · subst h3
          simp [JObj.setKey, JObj.get, h2]
        · simp only [JObj.setKey, if_neg h2, JObj.get, if_neg h3]
          exact JObj.get_setKey_other r k v k' h

theorem stampAllFrom_length (tsFn : Nat → List Char) :
    ∀ (es : List JObj) (i : Nat), (stampAllFrom tsFn es i).length = es.length := by
  intro es
  induction es with
  | nil => intro i; simp [stampAllFrom]
  | cons e es ih => intro i; simp [stampAllFrom, ih]

theorem stampAllFrom_getD (tsFn : Nat → List Char) :
    ∀ (es : List JObj) (i k : Nat), k < es.length →
      (stampAllFrom tsFn es i).getD k default =
        stampEvent (tsFn (i + k)) (es.getD k default) := by
  intro es
  induction es with
  | nil => intro i k hk; simp at hk
  | cons e es ih =>
      intro i k hk
      cases k with
      | zero => simp [stampAllFrom]
      | succ k =>
          have hk' : k < es.length := by simpa using hk
          have step := ih (i + 1) k hk'
          have h3 : i + 1 + k = i + (k + 1) := by omega
          rw [h3] at step
          simpa [stampAllFrom] using step

/-! ## Claims about the bulk body -/

/-- C1: for every non-empty batch of `k` events, the bulk body splits
on newlines into exactly `2k` non-empty, newline-free lines (each the
serialization of a JSON value) followed by a single trailing empty
segment, and the lines alternate: line `2i` is the action descriptor
for event `i` (with the configured index and the event's id) and line
`2i+1` is that event's stamped document body. -/
theorem bulk_body_wellformed (idx : List Char) (tsFn : Nat → List Char)
    (events : List JObj) (hne : events ≠ []) :
    splitNL (bulkBody idx tsFn events) = bulkLines idx tsFn events ++ [[]] ∧
    (bulkLines idx tsFn events).length = 2 * events.length ∧
    (∀ l ∈ bulkLines idx tsFn events, l ≠ [] ∧ '\n' ∉ l ∧ ∃ v : JVal, l = v.dumps) ∧
    (∀ k, k < events.length →
      (bulkLines idx tsFn events).get? (2 * k) =
        some (JVal.dumps (actionJson idx (stampEvent (tsFn k) (events.getD k default)))) ∧
      (bulkLines idx tsFn events).get? (2 * k + 1) =
        some (JVal.dumps (.jobj (stampEvent (tsFn k) (events.getD k default))))) := by
  have hlines : ∀ l ∈ bulkLines idx tsFn events, l ≠ [] ∧ '\n' ∉ l ∧ ∃ v : JVal, l = v.dumps := by
    intro l hl
    rcases List.mem_map.1 hl with ⟨v, _, rfl⟩
    exact ⟨JVal.dumps_ne_nil v, JVal.dumps_noNL v, v, rfl⟩
  have hlen : (bulkLines idx tsFn events).length = 2 * events.length := by
    simp [bulkLines, bulkItems_length]
  have hlne : bulkLines idx tsFn events ≠ [] := by
    intro h
    have := congrArg List.length h
    rw [hlen] at this
    simp at this
    rcases events with _ | ⟨e, es⟩
    · exact hne rfl
    · simp at this
  refine ⟨?_, hlen, hlines, ?_⟩
  · rw [bulkBody]
    exact splitNL_joinNL _ hlne (fun l hl => (hlines l hl).2.1)
  · intro k hk
    have hg := bulkItems_get idx tsFn events 0 k hk
    rw [Nat.zero_add] at hg
    constructor
    · rw [bulkLines, List.get?_map, hg.1]
      rfl
    · rw [bulkLines, List.get?_map, hg.2]
      rfl

/-- Closed instance of `bulk_body_wellformed` at a one-event batch. -/
theorem bulk_body_wellformed_witness :
    ([sampleE1] : List JObj) ≠ [] ∧
    (splitNL (bulkBody defaultIndexChars sampleTs [sampleE1]) =
        bulkLines defaultIndexChars sampleTs [sampleE1] ++ [[]] ∧
      (bulkLines defaultIndexChars sampleTs [sampleE1]).length = 2 * ([sampleE1] : List JObj).length ∧
      (∀ l ∈ bulkLines defaultIndexChars sampleTs [sampleE1],
        l ≠ [] ∧ '\n' ∉ l ∧ ∃ v : JVal, l = v.dumps) ∧
      (∀ k, k < ([sampleE1] : List JObj).length →
        (bulkLines defaultIndexChars sampleTs [sampleE1]).get? (2 * k) =
          some (JVal.dumps (actionJson defaultIndexChars
            (stampEvent (sampleTs k) (([sampleE1] : List JObj).getD k default)))) ∧
        (bulkLines defaultIndexChars sampleTs [sampleE1]).get? (2 * k + 1) =
          some (JVal.dumps (.jobj
            (stampEvent (sampleTs k) (([sampleE1] : List JObj).getD k default)))))) :=
  ⟨by decide, bulk_body_wellformed defaultIndexChars sampleTs [sampleE1] (by decide)⟩

/-- C6 (counterexample): on the two-event batch with ids `"E1"` and
`"E2"` under the default index name, the first line of the bulk body is
NOT the compact string `{"index":{"_index":"salesforce-login-events","_id":"E1"}}`
claimed by the spec: `json.dumps` emits `", "` and `": "` separators. -/
theorem spec_compact_bulk_line_refuted :
    (splitNL (bulkBody defaultIndexChars sampleTs [sampleE1, sampleE2])).get? 0 ≠
      some compactActionLineE1 := by decide

/-- C6 (amended): for a batch of exactly two events whose ids are
`"E1"` and `"E2"`, under the default index name, the bulk body consists
of exactly 4 JSON lines plus a trailing newline, where line 1 is
`{"index": {"_index": "salesforce-login-events", "_id": "E1"}}` (with
the default `json.dumps` separators `", "` and `": "`), line 3 is the
same with `"E2"`, and lines 2 and 4 are the stamped document bodies. -/
theorem bulk_two_event_lines (e1 e2 : JObj) (tsFn : Nat → List Char)
    (h1 : e1.get eventIdKey = some (.jstr "E1".toList))
    (h2 : e2.get eventIdKey = some (.jstr "E2".toList)) :
    splitNL (bulkBody defaultIndexChars tsFn [e1, e2]) =
      [bulkActionLineE1, JVal.dumps (.jobj (stampEvent (tsFn 0) e1)),
       bulkActionLineE2, JVal.dumps (.jobj (stampEvent (tsFn 1) e2)), []] := by
  have hid1 : (stampEvent (tsFn 0) e1).get eventIdKey = some (.jstr "E1".toList) := by
    rw [stampEvent, JObj.get_setKey_other e1 tsKey (.jstr (tsFn 0)) eventIdKey (by decide)]
    exact h1
  have hid2 : (stampEvent (tsFn 1) e2).get eventIdKey = some (.jstr "E2".toList) := by
    rw [stampEvent, JObj.get_setKey_other e2 tsKey (.jstr (tsFn 1)) eventIdKey (by decide)]
    exact h2
  have ha1 : JVal.dumps (actionJson defaultIndexChars (stampEvent (tsFn 0) e1)) =
      bulkActionLineE1 := by
    rw [actionJson, hid1]
    decide
  have ha2 : JVal.dumps (actionJson defaultIndexChars (stampEvent (tsFn 1) e2)) =
      bulkActionLineE2 := by
    rw [actionJson, hid2]
    decide
  have hitems : bulkItems defaultIndexChars tsFn [e1, e2] 0 =
      [actionJson defaultIndexChars (stampEvent (tsFn 0) e1),
       .jobj (stampEvent (tsFn 0) e1),
       actionJson defaultIndexChars (stampEvent (tsFn 1) e2),
       .jobj (stampEvent (tsFn 1) e2)] := by
    simp [bulkItems]
  rw [bulkBody, hitems, List.map_cons, List.map_cons, List.map_cons,
    List.map_cons, List.map_nil]
  rw [splitNL_joinNL _ (by simp) ?noNewline]
  case noNewline =>
    intro l hl
    simp only [List.mem_cons, List.not_mem_nil, or_false] at hl
    rcases hl with rfl | rfl | rfl | rfl <;> exact JVal.dumps_noNL _
  rw [ha1, ha2]
  rfl

/-- Closed instance of `bulk_two_event_lines` at the minimal two-event
batch. -/
theorem bulk_two_event_lines_witness :
    JObj.get sampleE1 eventIdKey = some (.jstr "E1".toList) ∧
    JObj.get sampleE2 eventIdKey = some (.jstr "E2".toList) ∧
    splitNL (bulkBody defaultIndexChars sampleTs [sampleE1, sampleE2]) =
      [bulkActionLineE1, JVal.dumps (.jobj (stampEvent (sampleTs 0) sampleE1)),
       bulkActionLineE2, JVal.dumps (.jobj (stampEvent (sampleTs 1) sampleE2)), []] :=
  ⟨by decide, by decide,
    bulk_two_event_lines sampleE1 sampleE2 sampleTs (by decide) (by decide)⟩

/-- C7: indexing an empty batch returns success immediately, performs
zero bulk POSTs, and leaves the (empty) events list untouched. -/
theorem empty_batch_noop (idx : List Char) (tsFn : Nat → List Char)
    (net : List Char → Except Exn Response) :
    bulk_index_events idx tsFn [] net = .ok (true, 0, []) := rfl

/-- C5: `bulk_index_events` on a non-empty batch returns `false` for
every response raising no exception whose status is not 2xx, returns
`false` for every 2xx response whose parsed body carries a truthy
top-level `errors` flag, and returns `true` only for a 2xx response
whose body parses to a dict without a truthy `errors` flag. -/
theorem bulk_response_interpretation (idx : List Char) (tsFn : Nat → List Char)
    (events : List JObj) (net : List Char → Except Exn Response)
    (hne : events ≠ []) :
    (∀ r, net (bulkBody idx tsFn events) = .ok r → ¬ is2xx r.status_code →
      bulk_index_events idx tsFn events net =
        .ok (false, 1, stampAllFrom tsFn events 0)) ∧
    (∀ r o, net (bulkBody idx tsFn events) = .ok r → is2xx r.status_code →
      r.json = .ok (.jobj o) →
      ((JObj.get o errorsKey).getD .jnull).truthy = true →
      bulk_index_events idx tsFn events net =
        .ok (false, 1, stampAllFrom tsFn events 0)) ∧
    (∀ res, bulk_index_events idx tsFn events net = .ok res → res.1 = true →
      ∃ r o, net (bulkBody idx tsFn events) = .ok r ∧ is2xx r.status_code ∧
        r.json = .ok (.jobj o) ∧
        ((JObj.get o errorsKey).getD .jnull).truthy = false) := by
  rcases events with _ | ⟨e0, es⟩
  · exact absurd rfl hne
  refine ⟨?_, ?_, ?_⟩
  · intro r hr h2xx
    have h200 : ¬(r.status_code = 200) := fun h => h2xx (by rw [h]; decide)
    simp only [bulk_index_events, List.isEmpty_cons, Bool.false_eq_true,
      if_false, bulkAttempt, hr, if_neg h200]
  · intro r o hr h2xx hj htr
    by_cases h200 : r.status_code = 200
    · simp only [bulk_index_events, List.isEmpty_cons, Bool.false_eq_true,
        if_false, bulkAttempt, hr, if_pos h200, hj, getErrorsFlag, htr]
      rfl
    · simp only [bulk_index_events, List.isEmpty_cons, Bool.false_eq_true,
        if_false, bulkAttempt, hr, if_neg h200]
  · intro res hres htrue
    rcases hnet : net (bulkBody idx tsFn (e0 :: es)) with e | r
    · rw [bulk_index_events] at hres
      simp only [List.isEmpty_cons, Bool.false_eq_true, if_false,
        bulkAttempt, hnet] at hres
      rw [(Except.ok.inj hres).symm] at htrue
      simp at htrue
    · by_cases h200 : r.status_code = 200
      · rcases hj : r.json with e | j
        · rw [bulk_index_events] at hres
          simp only [List.isEmpty_cons, Bool.false_eq_true, if_false,
            bulkAttempt, hnet, if_pos h200, hj] at hres
          rw [(Except.ok.inj hres).symm] at htrue
          simp at htrue
        · rcases hf : getErrorsFlag j with e2 | errs
          · rw [bulk_index_events] at hres
            simp only [List.isEmpty_cons, Bool.false_eq_true, if_false,
              bulkAttempt, hnet, if_pos h200, hj, hf] at hres
            rw [(Except.ok.inj hres).symm] at htrue
            simp at htrue
          · rw [bulk_index_events] at hres
            simp only [List.isEmpty_cons, Bool.false_eq_true, if_false,
              bulkAttempt, hnet, if_pos h200, hj, hf] at hres
            rw [(Except.ok.inj hres).symm] at htrue
            have herrs : errs = false := by
              cases errs
              · rfl
              · simp at htrue
            cases j with
            | jobj o =>
                rw [getErrorsFlag] at hf
                refine ⟨r, o, rfl, by rw [h200]; decide, hj, ?_⟩
                rw [Except.ok.inj hf, herrs]
            | jnull => simp [getErrorsFlag] at hf
            | jbool b => simp [getErrorsFlag] at hf
            | jnum n => simp [getErrorsFlag] at hf
            | jstr s => simp [getErrorsFlag] at hf
            | jarr a => simp [getErrorsFlag] at hf
      · rw [bulk_index_events] at hres
        simp only [List.isEmpty_cons, Bool.false_eq_true, if_false,
          bulkAttempt, hnet, if_neg h200] at hres
        rw [(Except.ok.inj hres).symm] at htrue
        simp at htrue

/-- Closed instance of `bulk_response_interpretation` against an HTTP
500 response. -/
theorem bulk_response_interpretation_witness :
    ([sampleE1] : List JObj) ≠ [] ∧
    ((∀ r, wNet500 (bulkBody defaultIndexChars sampleTs [sampleE1]) = .ok r →
        ¬ is2xx r.status_code →
        bulk_index_events defaultIndexChars sampleTs [sampleE1] wNet500 =
          .ok (false, 1, stampAllFrom sampleTs [sampleE1] 0)) ∧
      (∀ r o, wNet500 (bulkBody defaultIndexChars sampleTs [sampleE1]) = .ok r →
        is2xx r.status_code → r.json = .ok (.jobj o) →
        ((JObj.get o errorsKey).getD .jnull).truthy = true →
        bulk_index_events defaultIndexChars sampleTs [sampleE1] wNet500 =
          .ok (false, 1, stampAllFrom sampleTs [sampleE1] 0)) ∧
      (∀ res, bulk_index_events defaultIndexChars sampleTs [sampleE1] wNet500 = .ok res →
        res.1 = true →
        ∃ r o, wNet500 (bulkBody defaultIndexChars sampleTs [sampleE1]) = .ok r ∧
          is2xx r.status_code ∧ r.json = .ok (.jobj o) ∧
          ((JObj.get o errorsKey).getD .jnull).truthy = false)) :=
  ⟨by decide,
    bulk_response_interpretation defaultIndexChars sampleTs [sampleE1] wNet500 (by decide)⟩

/-- C9: on a non-empty batch, `bulk_index_events` mutates the caller's
event records in place: every event gains (or has overwritten) an
`@timestamp` key holding its ingestion time, and all its other keys
keep their previous values. -/
theorem index_batch_mutates_events (idx : List Char) (tsFn : Nat → List Char)
    (events : List JObj) (net : List Char → Except Exn Response)
    (hne : events ≠ []) :
    (∃ b, bulk_index_events idx tsFn events net =
      .ok (b, 1, stampAllFrom tsFn events 0)) ∧
    (stampAllFrom tsFn events 0).length = events.length ∧
    (∀ k, k < events.length →
      ((stampAllFrom tsFn events 0).getD k default).get tsKey =
        some (.jstr (tsFn k)) ∧
      (∀ key, key ≠ tsKey →
        ((stampAllFrom tsFn events 0).getD k default).get key =
          (events.getD k default).get key)) := by
  refine ⟨?_, stampAllFrom_length tsFn events 0, ?_⟩
  · rcases events with _ | ⟨e0, es⟩
    · exact absurd rfl hne
    · rcases h : bulkAttempt net (bulkBody idx tsFn (e0 :: es)) with e | b
      · exact ⟨false, by simp only [bulk_index_events, List.isEmpty_cons,
          Bool.false_eq_true, if_false, h]⟩
      · exact ⟨b, by simp only [bulk_index_events, List.isEmpty_cons,
          Bool.false_eq_true, if_false, h]⟩
  · intro k hk
    have hg := stampAllFrom_getD tsFn events 0 k hk
    rw [Nat.zero_add] at hg
    rw [hg]
    constructor
    · rw [stampEvent]
      exact JObj.get_setKey_same _ _ _
    · intro key hkey
      rw [stampEvent]
      exact JObj.get_setKey_other _ _ _ _ hkey

/-- Closed instance of `index_batch_mutates_events` at a one-event
batch over a failing transport. -/
theorem index_batch_mutates_events_witness :
    ([sampleE1] : List JObj) ≠ [] ∧
    ((∃ b, bulk_index_events defaultIndexChars sampleTs [sampleE1] wNet500 =
      .ok (b, 1, stampAllFrom sampleTs [sampleE1] 0)) ∧
    (stampAllFrom sampleTs [sampleE1] 0).length = ([sampleE1] : List JObj).length ∧
    (∀ k, k < ([sampleE1] : List JObj).length →
      ((stampAllFrom sampleTs [sampleE1] 0).getD k default).get tsKey =
        some (.jstr (sampleTs k)) ∧
      (∀ key, key ≠ tsKey →
        ((stampAllFrom sampleTs [sampleE1] 0).getD k default).get key =
          (([sampleE1] : List JObj).getD k default).get key))) :=
  ⟨by decide,
    index_batch_mutates_events defaultIndexChars sampleTs [sampleE1] wNet500 (by decide)⟩

/-- C10: `bulk_index_events` always returns a boolean to its caller —
no exception escapes — and whenever the attempt inside the `try` block
raises, the exception is converted into a `False` return (with the
events already stamped). -/
theorem index_batch_never_raises (idx : List Char) (tsFn : Nat → List Char)
    (events : List JObj) (net : List Char → Except Exn Response) :
    (∃ res : Bool × Nat × List JObj,
      bulk_index_events idx tsFn events net = .ok res) ∧
    (∀ e, events ≠ [] → bulkAttempt net (bulkBody idx tsFn events) = .error e →
      bulk_index_events idx tsFn events net =
        .ok (false, 1, stampAllFrom tsFn events 0)) := by
  constructor
  · rcases events with _ | ⟨e0, es⟩
    · exact ⟨(true, 0, []), rfl⟩
    · rcases h : bulkAttempt net (bulkBody idx tsFn (e0 :: es)) with e | b
      · exact ⟨(false, 1, stampAllFrom tsFn (e0 :: es) 0),
          by simp only [bulk_index_events, List.isEmpty_cons,
            Bool.false_eq_true, if_false, h]⟩
      · exact ⟨(b, 1, stampAllFrom tsFn (e0 :: es) 0),
          by simp only [bulk_index_events, List.isEmpty_cons,
            Bool.false_eq_true, if_false, h]⟩
  · intro e hne h
    rcases events with _ | ⟨e0, es⟩
    · exact absurd rfl hne
    · simp only [bulk_index_events, List.isEmpty_cons,
        Bool.false_eq_true, if_false, h]

/-- Closed instance of `index_batch_never_raises` over a transport that
raises on every request. -/
theorem index_batch_never_raises_witness :
    (∃ res : Bool × Nat × List JObj,
      bulk_index_events defaultIndexChars sampleTs [sampleE1]
        (fun _ => .error .transport) = .ok res) ∧
    (∀ e, ([sampleE1] : List JObj) ≠ [] →
      bulkAttempt (fun _ => .error .transport)
        (bulkBody defaultIndexChars sampleTs [sampleE1]) = .error e →
      bulk_index_events defaultIndexChars sampleTs [sampleE1]
        (fun _ => .error .transport) =
        .ok (false, 1, stampAllFrom sampleTs [sampleE1] 0)) :=
  index_batch_never_raises defaultIndexChars sampleTs [sampleE1]
    (fun _ => .error .transport)

/-! ## Claims about the token cache -/

/-- C2: over the states reachable from `__init__` (token and expiry set
together, stored tokens non-empty), `ensure_authenticated` performs an
authentication network call exactly when the cached token is absent or
`now >= expires_at`; starting from the initial state, two consecutive
calls within the first token's validity window perform one
authentication in total; and a call made with a cached token at or past
its expiry performs exactly one re-authentication. -/
theorem ensure_authenticated_token_cache (s : SfState) (now : Nat)
    (tok : List Char) (hs : SfInv s) :
    ((ensure_authenticated s now tok).2 = 1 ↔
      s.access_token = none ∨ ∃ e, s.token_expires_at = some e ∧ e ≤ now) ∧
    ((ensure_authenticated s now tok).2 = 0 ↔
      ¬(s.access_token = none ∨ ∃ e, s.token_expires_at = some e ∧ e ≤ now)) ∧
    (∀ now1 now2 tok1, tok1 ≠ [] → now2 < now1 + tokenLifetime → ∀ tok2,
      (ensure_authenticated SfState.init now1 tok1).2 +
        (ensure_authenticated (ensure_authenticated SfState.init now1 tok1).1
          now2 tok2).2 = 1) ∧
    (∀ t e, s.access_token = some t → s.token_expires_at = some e → e ≤ now →
      (ensure_authenticated s now tok).2 = 1) := by
  obtain ⟨hiff, hnonempty⟩ := hs
  have hmain : (ensure_authenticated s now tok).2 = 1 ↔
      s.access_token = none ∨ ∃ e, s.token_expires_at = some e ∧ e ≤ now := by
    rcases hat : s.access_token with _ | t
    · have hexp : s.token_expires_at = none := by
        rcases hexp : s.token_expires_at with _ | e
        · rfl
        · rw [hat, hexp] at hiff
          simp at hiff
      simp [ensure_authenticated, is_token_valid, authenticate, hat, hexp]
    · rcases hexp : s.token_expires_at with _ | e
      · rw [hat, hexp] at hiff
        simp at hiff
      · have htne : t ≠ [] := hnonempty t hat
        have hte : t.isEmpty = false := by
          rcases t with _ | ⟨c, cs⟩
          · exact absurd rfl htne
          · rfl
        by_cases hlt : now < e
        · have hv : is_token_valid s now = true := by
            simp [is_token_valid, hat, hexp, hte, hlt]
          simp only [ensure_authenticated, hv, if_true]
          constructor
          · intro h
            simp at h
          · intro h
            rcases h with h | ⟨e', he', hle⟩
            · simp at h
            · cases Option.some.inj he'
              omega
        · have hv : is_token_valid s now = false := by
            simp [is_token_valid, hat, hexp, hlt]
          simp only [ensure_authenticated, hv, Bool.false_eq_true, if_false,
            authenticate]
          constructor
          · intro _
            exact Or.inr ⟨e, rfl, by omega⟩
          · intro _
            trivial
  refine ⟨hmain, ?_, ?_, ?_⟩
  · rw [← hmain]
    rcases h : (ensure_authenticated s now tok).2 with _ | n
    · simp
    · have : n = 0 := by
        have hcases : (ensure_authenticated s now tok).2 = 0 ∨
            (ensure_authenticated s now tok).2 = 1 := by
          rw [ensure_authenticated]
          split
          · exact Or.inl rfl
          · exact Or.inr rfl
        omega
      omega
  · intro now1 now2 tok1 htok1 hlt tok2
    have hte : tok1.isEmpty = false := by
      rcases tok1 with _ | ⟨c, cs⟩
      · exact absurd rfl htok1
      · rfl
    have h1 : ensure_authenticated SfState.init now1 tok1 =
        (⟨some tok1, some (now1 + tokenLifetime)⟩, 1) := by
      simp [ensure_authenticated, is_token_valid, SfState.init, authenticate]
    rw [h1]
    have h2 : is_token_valid ⟨some tok1, some (now1 + tokenLifetime)⟩ now2 = true := by
      simp [is_token_valid, hte, hlt]
    simp [ensure_authenticated, h2]
  · intro t e hat hexp hle
    rw [hmain]
    exact Or.inr ⟨e, hexp, hle⟩

/-- Closed instance of `ensure_authenticated_token_cache` at a state
holding a valid token. -/
theorem ensure_authenticated_token_cache_witness :
    SfInv wSfValid ∧
    (((ensure_authenticated wSfValid 50 ("t2").toList).2 = 1 ↔
      wSfValid.access_token = none ∨
        ∃ e, wSfValid.token_expires_at = some e ∧ e ≤ 50) ∧
    ((ensure_authenticated wSfValid 50 ("t2").toList).2 = 0 ↔
      ¬(wSfValid.access_token = none ∨
        ∃ e, wSfValid.token_expires_at = some e ∧ e ≤ 50)) ∧
    (∀ now1 now2 tok1, tok1 ≠ [] → now2 < now1 + tokenLifetime → ∀ tok2,
      (ensure_authenticated SfState.init now1 tok1).2 +
        (ensure_authenticated (ensure_authenticated SfState.init now1 tok1).1
          now2 tok2).2 = 1) ∧
    (∀ t e, wSfValid.access_token = some t → wSfValid.token_expires_at = some e →
      e ≤ 50 → (ensure_authenticated wSfValid 50 ("t2").toList).2 = 1)) :=
  ⟨⟨Iff.rfl, fun t ht => by
      rw [show wSfValid.access_token = some (("tok").toList) from rfl] at ht
      cases Option.some.inj ht
      decide⟩,
    ensure_authenticated_token_cache wSfValid 50 ("t2").toList
      ⟨Iff.rfl, fun t ht => by
        rw [show wSfValid.access_token = some (("tok").toList) from rfl] at ht
        cases Option.some.inj ht
        decide⟩⟩

/-! ## Claims about the poll loop -/

theorem iterCycles_soql_succ (st0 : StreamerState) (clock : Nat → Nat)
    (store : List Nat) (ib : List Nat → Bool) (p n : Nat) :
    iterCycles st0 clock (soqlFetch store) ib p (n + 1) = ⟨clock n⟩ := by
  simp [iterCycles, loopStep, process_events, soqlFetch]

/-- C3: with an always-succeeding store-backed fetch, the watermark
sequence across completed cycles is monotonically non-decreasing (given
a monotone clock whose first capture is past the initial watermark),
each completed cycle sets the watermark to the `end_time` captured at
its start, and the events each cycle fetches are exactly those of the
half-open SOQL window `[previous watermark, cycle start)`. -/
theorem watermark_monotone_windows (st0 : StreamerState) (clock : Nat → Nat)
    (store : List Nat) (ib : List Nat → Bool) (p : Nat)
    (hclock : ∀ n, clock n ≤ clock (n + 1))
    (hinit : st0.last_poll_time ≤ clock 0) :
    (∀ m n, m ≤ n →
      (iterCycles st0 clock (soqlFetch store) ib p m).last_poll_time ≤
        (iterCycles st0 clock (soqlFetch store) ib p n).last_poll_time) ∧
    (∀ n, (iterCycles st0 clock (soqlFetch store) ib p (n + 1)).last_poll_time =
      clock n) ∧
    (∀ n t, t ∈ cycleEvents st0 clock store ib p n ↔
      t ∈ store ∧
        (iterCycles st0 clock (soqlFetch store) ib p n).last_poll_time ≤ t ∧
        t < clock n) := by
  have hsucc : ∀ n,
      (iterCycles st0 clock (soqlFetch store) ib p (n + 1)).last_poll_time =
        clock n := by
    intro n
    rw [iterCycles_soql_succ]
  refine ⟨?_, hsucc, ?_⟩
  · have hstep : ∀ n,
        (iterCycles st0 clock (soqlFetch store) ib p n).last_poll_time ≤
          (iterCycles st0 clock (soqlFetch store) ib p (n + 1)).last_poll_time := by
      intro n
      cases n with
      | zero =>
          rw [hsucc 0]
          exact hinit
      | succ m =>
          rw [hsucc m, hsucc (m + 1)]
          exact hclock m
    exact fun m n hmn => monotone_nat_of_le_succ hstep hmn
  · intro n t
    simp [cycleEvents, soqlFetch, Except.toOption, List.mem_filter, and_assoc]

/-- Closed instance of `watermark_monotone_windows` at a concrete clock
and store. -/
theorem watermark_monotone_windows_witness :
    (∀ n, wClock n ≤ wClock (n + 1)) ∧
    wSt0.last_poll_time ≤ wClock 0 ∧
    ((∀ m n, m ≤ n →
      (iterCycles wSt0 wClock (soqlFetch wStore) wIb 60 m).last_poll_time ≤
        (iterCycles wSt0 wClock (soqlFetch wStore) wIb 60 n).last_poll_time) ∧
    (∀ n, (iterCycles wSt0 wClock (soqlFetch wStore) wIb 60 (n + 1)).last_poll_time =
      wClock n) ∧
    (∀ n t, t ∈ cycleEvents wSt0 wClock wStore wIb 60 n ↔
      t ∈ wStore ∧
        (iterCycles wSt0 wClock (soqlFetch wStore) wIb 60 n).last_poll_time ≤ t ∧
        t < wClock n)) :=
  ⟨fun n => by simp only [wClock]; omega, by decide,
    watermark_monotone_windows wSt0 wClock wStore wIb 60
      (fun n => by simp only [wClock]; omega) (by decide)⟩

/-- C4: when the fetch raises, the exception escapes `process_events`
before the watermark assignment, so the loop-level handler logs it,
keeps the watermark unchanged, and sleeps the fixed 30-second backoff;
the next cycle therefore retries from the same stale watermark. -/
theorem fetch_failure_preserves_watermark {α : Type} (st : StreamerState)
    (now p : Nat) (fetch : Nat → Nat → Except Exn (List α))
    (ib : List α → Bool) (e : Exn)
    (hf : fetch st.last_poll_time now = .error e) :
    process_events st now fetch ib = .error e ∧
    loopStep st now p fetch ib = (st, 30, true) := by
  have hp : process_events st now fetch ib = .error e := by
    rw [process_events, hf]
  exact ⟨hp, by rw [loopStep, hp]⟩

/-- Closed instance of `fetch_failure_preserves_watermark` at a fetch
oracle that raises an upstream error. -/
theorem fetch_failure_preserves_watermark_witness :
    wFailFetch wSt0.last_poll_time 50 = .error .transport ∧
    (process_events wSt0 50 wFailFetch wIb = .error .transport ∧
      loopStep wSt0 50 60 wFailFetch wIb = (wSt0, 30, true)) :=
  ⟨rfl, fetch_failure_preserves_watermark wSt0 50 60 wFailFetch wIb .transport rfl⟩

/-! ## Claims about configuration loading -/

/-- C8 (counterexample): with the OpenSearch endpoint unset AND an
unparsable poll-interval value, configuration loading fails with the
`int()` parse error — raised before the required-variable check — so
the error does not name the missing required setting, contrary to the
claim's "whenever". -/
theorem config_intparse_precedes_validation :
    missingOf wEnvBadPoll ≠ [] ∧
    Config.load wEnvBadPoll (.ok wCreds) =
      .error "invalid literal for int() with base 10" ∧
    Config.load wEnvBadPoll (.ok wCreds) ≠
      .error ("Missing required environment variables: " ++
        String.intercalate ", " (missingOf wEnvBadPoll)) := by
  refine ⟨by decide, by rfl, ?_⟩
  intro h
  rw [show Config.load wEnvBadPoll (.ok wCreds) =
    .error "invalid literal for int() with base 10" from rfl] at h
  have := Except.error.inj h
  exact absurd this (by decide)

/-- C8 (amended): provided the poll-interval string parses as an integer,
configuration loading fails with one fatal error naming exactly the
required settings (OpenSearch endpoint, secret reference, Salesforce
instance URL) that are absent or empty, and when all three are present
it succeeds (given a successful secret lookup), with the poll interval
defaulting to 60 and the index name defaulting to
`salesforce-login-events` when their variables are unset. -/
theorem config_required_validation (env : String → Option String)
    (secretLookup : Except String SfCreds) (k : Int)
    (hpoll : pyInt (getenvD env "POLL_INTERVAL_SECONDS" "60") = .ok k) :
    (missingOf env ≠ [] →
      Config.load env secretLookup =
        .error ("Missing required environment variables: " ++
          String.intercalate ", " (missingOf env)) ∧
      ∀ name, name ∈ missingOf env ↔
        name ∈ requiredNames ∧ strFalsy (env name) = true) ∧
    (missingOf env = [] → ∀ creds, secretLookup = .ok creds →
      ∃ cfg, Config.load env secretLookup = .ok cfg ∧
        cfg.poll_interval_seconds = k ∧
        (env "POLL_INTERVAL_SECONDS" = none → cfg.poll_interval_seconds = 60) ∧
        cfg.opensearch_index = getenvD env "OPENSEARCH_INDEX" "salesforce-login-events" ∧
        (env "OPENSEARCH_INDEX" = none →
          cfg.opensearch_index = "salesforce-login-events")) := by
  constructor
  · intro hm
    have hne : (missingOf env).isEmpty = false := by
      rcases h : missingOf env with _ | ⟨a, l⟩
      · exact absurd h hm
      · rfl
    constructor
    · simp only [Config.load, hpoll, hne, Bool.false_eq_true, if_false]
    · intro name
      rw [missingOf]
      exact List.mem_filter
  · intro hm creds hcreds
    have hne : (missingOf env).isEmpty = true := by
      rw [hm]
      rfl
    refine ⟨⟨getenvD env "AWS_REGION" "us-west-1",
        (env "SECRETS_MANAGER_SECRET_ARN").getD "",
        (env "OPENSEARCH_ENDPOINT").getD "",
        getenvD env "OPENSEARCH_INDEX" "salesforce-login-events",
        k, (env "SALESFORCE_INSTANCE_URL").getD "", creds⟩,
      ?_, rfl, ?_, rfl, ?_⟩
    · simp only [Config.load, hpoll, hne, if_true, hcreds]
    · intro hup
      simp only [getenvD, hup] at hpoll
      have h60 : pyInt "60" = .ok 60 := by rfl
      rw [h60] at hpoll
      exact (Except.ok.inj hpoll).symm
    · intro hui
      simp [getenvD, hui]

/-- Closed instance of `config_required_validation` at an environment
missing the OpenSearch endpoint. -/
theorem config_required_validation_witness :
    pyInt (getenvD wEnvMissing "POLL_INTERVAL_SECONDS" "60") = .ok 60 ∧
    ((missingOf wEnvMissing ≠ [] →
      Config.load wEnvMissing (.ok wCreds) =
        .error ("Missing required environment variables: " ++
          String.intercalate ", " (missingOf wEnvMissing)) ∧
      ∀ name, name ∈ missingOf wEnvMissing ↔
        name ∈ requiredNames ∧ strFalsy (wEnvMissing name) = true) ∧
    (missingOf wEnvMissing = [] → ∀ creds, (.ok wCreds : Except String SfCreds) = .ok creds →
      ∃ cfg, Config.load wEnvMissing (.ok wCreds) = .ok cfg ∧
        cfg.poll_interval_seconds = 60 ∧
        (wEnvMissing "POLL_INTERVAL_SECONDS" = none →
          cfg.poll_interval_seconds = 60) ∧
        cfg.opensearch_index =
          getenvD wEnvMissing "OPENSEARCH_INDEX" "salesforce-login-events" ∧
        (wEnvMissing "OPENSEARCH_INDEX" = none →
          cfg.opensearch_index = "salesforce-login-events"))) :=
  ⟨by rfl, config_required_validation wEnvMissing (.ok wCreds) 60 (by rfl)⟩

end Pipeline
